import Mathlib

/-!
Verification development for the NFTMarket-GH repository.

The subject is the lootbox subsystem: the `CreatureAccessoryLootBox`
contract (src/unnamed/part_014), the `CreatureAccessoryFactory` contract
(src/unnamed/part_015), and the `LootBoxRandomness` library the lootbox
contract delegates to.  The library's own source file is not among the
sources (only its callers are), so its operations are modelled from the
specification (spec.md §3, §4.1–§4.5); every such definition is marked
`Modelled from the spec:` in its doc comment.  Addresses, token ids and
amounts are modelled as `Nat`; a reverting call is an `Except.error`
result, matching the all-or-nothing transaction semantics of the
execution platform (spec §5, §7).
-/

/-- Returns `true` exactly when a call result is a revert
(an `Except.error`); a reverted transaction leaves every ledger as it
was before the call. -/
def didRevert {ε α : Type} : Except ε α → Bool
  | .error _ => true
  | .ok _ => false

/-- Modelled from the spec: per-option configuration of the missing
`LootBoxRandomness` library (spec §3 `LootboxOption`, §4.3):
`maxQuantityPerOpen`, one probability weight per class (out of 10000),
and one guaranteed minimum count per class. -/
structure OptionSettings where
  maxQuantityPerOpen : Nat
  classProbabilities : List Nat
  guarantees : List Nat

/-- Modelled from the spec: configuration state of the missing
`LootBoxRandomness` library (spec §3): the factory address, the number
of options and classes fixed by `initState`, the owner-set seed, the
per-option settings and the per-class candidate token-id lists. -/
structure LBRState where
  factoryAddress : Nat
  numOptions : Nat
  numClasses : Nat
  seed : Nat
  optionCfg : Nat → OptionSettings
  classTokenIds : Nat → List Nat

/-- Modelled from the spec: the linear scan of the weighted categorical
draw (spec §4.4 step 3b): walk `classProbabilities` in class-index
order and return the index of the first class whose cumulative weight
exceeds the drawn value; `none` when the drawn value lies at or beyond
the last cumulative boundary. -/
def pickClassGo : List Nat → Nat → Nat → Option Nat
  | [], _, _ => none
  | p :: rest, r, i => if r < p then some i else pickClassGo rest (r - p) (i + 1)

/-- Modelled from the spec: the weighted categorical draw (spec §4.4
step 3b and its tie-break rule): a draw landing beyond the last
cumulative boundary deterministically falls into the last class
(index `numClasses - 1`), a clamp rather than a revert. -/
def pickRandomClass (numClasses : Nat) (classProbabilities : List Nat) (r : Nat) : Nat :=
  (pickClassGo classProbabilities r 0).getD (numClasses - 1)

/-- Modelled from the spec: increment the quantity recorded at a given
class index (spec §4.4 step 3c, "increment that class's drawn
quantity"). -/
def bumpAt : List Nat → Nat → List Nat
  | [], _ => []
  | q :: rest, 0 => (q + 1) :: rest
  | q :: rest, i + 1 => q :: bumpAt rest i

/-- Modelled from the spec: the probabilistic remainder of one
allocation (spec §4.4 step 3): starting from the quantities seeded with
the guarantees, perform one independent weighted draw per remaining
slot, each draw consuming one value of the randomness stream `rng`
(reduced into `[0, 10000)`, spec §4.1) at the current nonce. -/
def allocateDraws (numClasses : Nat) (classProbabilities : List Nat)
    (rng : Nat → Nat) : Nat → Nat → List Nat → List Nat
  | _, 0, acc => acc
  | nonce, k + 1, acc =>
      allocateDraws numClasses classProbabilities rng (nonce + 1) k
        (bumpAt acc (pickRandomClass numClasses classProbabilities (rng nonce % 10000)))

/-- Modelled from the spec: one run of the allocation computed during
`unpack` (spec §4.4 steps 1–3): seed the per-class quantities with the
guarantees, then draw `maxQuantityPerOpen - sum(guarantees)` further
slots from the weighted categorical distribution. -/
def computeAllocation (numClasses : Nat) (cfg : OptionSettings)
    (rng : Nat → Nat) (nonce : Nat) : List Nat :=
  allocateDraws numClasses cfg.classProbabilities rng nonce
    (cfg.maxQuantityPerOpen - cfg.guarantees.sum) cfg.guarantees

/-- A successful scan returns an index below `start + length`. -/
theorem pickClassGo_lt (probs : List Nat) :
    ∀ r i j, pickClassGo probs r i = some j → j < i + probs.length := by
  induction probs with
  | nil => intro r i j h; simp [pickClassGo] at h
  | cons p rest ih =>
      intro r i j h
      simp only [pickClassGo] at h
      by_cases hr : r < p
      · simp only [hr, if_true, Option.some.injEq] at h
        simp only [List.length_cons]
        omega
      · simp only [hr, if_false] at h
        have := ih (r - p) (i + 1) j h
        simp only [List.length_cons]
        omega

/-- The selected class index is always a legal class index. -/
theorem pickRandomClass_lt (numClasses : Nat) (probs : List Nat) (r : Nat)
    (hlen : probs.length = numClasses) (hpos : 0 < numClasses) :
    pickRandomClass numClasses probs r < numClasses := by
  unfold pickRandomClass
  cases h : pickClassGo probs r 0 with
  | none => simpa using Nat.sub_lt hpos Nat.one_pos
  | some j =>
      have := pickClassGo_lt probs r 0 j h
      simpa [hlen] using this

/-- When the drawn value is at or beyond the total weight, the scan
finds no class. -/
theorem pickClassGo_none (probs : List Nat) :
    ∀ r i, probs.sum ≤ r → pickClassGo probs r i = none := by
  induction probs with
  | nil => intro r i _; rfl
  | cons p rest ih =>
      intro r i h
      simp only [List.sum_cons] at h
      have hr : ¬ r < p := by omega
      simp only [pickClassGo, hr, if_false]
      exact ih (r - p) (i + 1) (by omega)

/-- Bumping a class quantity keeps the number of classes. -/
theorem bumpAt_length (l : List Nat) : ∀ i, (bumpAt l i).length = l.length := by
  induction l with
  | nil => intro i; cases i <;> rfl
  | cons q rest ih => intro i; cases i with
      | zero => rfl
      | succ j => simpa [bumpAt] using ih j

/-- Bumping at a legal class index raises the total by exactly one. -/
theorem bumpAt_sum (l : List Nat) : ∀ i, i < l.length → (bumpAt l i).sum = l.sum + 1 := by
  induction l with
  | nil => intro i h; simp at h
  | cons q rest ih =>
      intro i h
      cases i with
      | zero => simp [bumpAt]; omega
      | succ j =>
          simp only [bumpAt, List.sum_cons]
          have hj : j < rest.length := by simpa using h
          rw [ih j hj]
          omega

/-- Each probabilistic draw adds exactly one unit; `k` draws add `k`. -/
theorem allocateDraws_sum (numClasses : Nat) (probs : List Nat)
    (rng : Nat → Nat) (hlen : probs.length = numClasses) (hpos : 0 < numClasses) :
    ∀ k nonce acc, acc.length = numClasses →
      (allocateDraws numClasses probs rng nonce k acc).sum = acc.sum + k ∧
      (allocateDraws numClasses probs rng nonce k acc).length = numClasses := by
  intro k
  induction k with
  | zero => intro nonce acc hacc; exact ⟨rfl, hacc⟩
  | succ n ih =>
      intro nonce acc hacc
      have hidx : pickRandomClass numClasses probs (rng nonce % 10000) < acc.length := by
        rw [hacc]; exact pickRandomClass_lt numClasses probs _ hlen hpos
      have hlen' : (bumpAt acc (pickRandomClass numClasses probs (rng nonce % 10000))).length
          = numClasses := by rw [bumpAt_length, hacc]
      have hsum' := bumpAt_sum acc _ hidx
      have := ih (nonce + 1) _ hlen'
      unfold allocateDraws
      refine ⟨?_, this.2⟩
      rw [this.1, hsum']
      omega

/-- C1: for every valid option configuration (probability and guarantee
lists of length `numClasses`, at least one class, and guarantees
summing to at most `maxQuantityPerOpen`), one run of the allocation
computed during unpack yields per-class quantities whose total —
guaranteed units plus probabilistically drawn units — is exactly
`maxQuantityPerOpen`, for every randomness stream and nonce. -/
theorem computeAllocation_total (numClasses : Nat) (cfg : OptionSettings)
    (rng : Nat → Nat) (nonce : Nat)
    (hp : cfg.classProbabilities.length = numClasses)
    (hg : cfg.guarantees.length = numClasses)
    (hpos : 0 < numClasses)
    (hsum : cfg.guarantees.sum ≤ cfg.maxQuantityPerOpen) :
    (computeAllocation numClasses cfg rng nonce).sum = cfg.maxQuantityPerOpen := by
  unfold computeAllocation
  have := (allocateDraws_sum numClasses cfg.classProbabilities rng hp hpos
    (cfg.maxQuantityPerOpen - cfg.guarantees.sum) nonce cfg.guarantees hg).1
  rw [this]
  omega

/-- Witness for C1: the gold-box configuration from the deployment
scripts (`maxQuantityPerOpen = 7`, guarantees `[3,0,2,0,1,0]`) always
allocates exactly 7 units. -/
theorem computeAllocation_total_w :
    (computeAllocation 6
        ⟨7, [7300, 2100, 400, 100, 50, 50], [3, 0, 2, 0, 1, 0]⟩
        (fun n => n * 123 + 7) 0).sum = 7 :=
  computeAllocation_total 6
    ⟨7, [7300, 2100, 400, 100, 50, 50], [3, 0, 2, 0, 1, 0]⟩
    (fun n => n * 123 + 7) 0 (by decide) (by decide) (by decide) (by decide)

/-- C5: when the class probabilities sum to less than the full range
10000 (owner misconfiguration), every draw value at or beyond the last
cumulative boundary is deterministically assigned to the last class,
index `numClasses - 1`; the draw is a total function and never
reverts. -/
theorem pickRandomClass_clamps (numClasses : Nat) (probs : List Nat) (r : Nat)
    (hlt : probs.sum < 10000) (hr : probs.sum ≤ r) :
    pickRandomClass numClasses probs r = numClasses - 1 := by
  unfold pickRandomClass
  rw [pickClassGo_none probs r 0 hr]
  rfl

/-- Witness for C5: probabilities summing to 9900 send the draw value
9950 to the last of four classes. -/
theorem pickRandomClass_clamps_w :
    pickRandomClass 4 [7300, 2100, 400, 100] 9950 = 3 :=
  pickRandomClass_clamps 4 [7300, 2100, 400, 100] 9950 (by decide) (by decide)

/-- Returns `true` exactly when a resolution result succeeded with a
token id that belongs to the given candidate list. -/
def okMem (r : Except String Nat) (ids : List Nat) : Bool :=
  match r with
  | .ok t => ids.contains t
  | .error _ => false

/-- Modelled from the spec: `resolveClassToTokenId` of the missing
`LootBoxRandomness` library (spec §4.2): map a random index, reduced
modulo the candidate-list length, to one concrete token id of the
class; resolving a class with zero assigned token ids is fatal and
reverts. -/
def resolveClassToTokenId (tokenIds : List Nat) (randomIndex : Nat) : Except String Nat :=
  match tokenIds with
  | [] => .error "LootBoxRandomness: no token ids for class"
  | t :: rest =>
      .ok ((t :: rest).get
        ⟨randomIndex % (t :: rest).length, Nat.mod_lt _ (Nat.succ_pos rest.length)⟩)

/-- Modelled from the spec: `setTokenIdsForClass` of the missing
`LootBoxRandomness` library (spec §4.2): owner-only replacement of a
class's candidate list, constrained to a known class id and a
non-empty list. -/
def setTokenIdsForClass (st : LBRState) (classId : Nat) (tokenIds : List Nat) :
    Except String LBRState :=
  if classId < st.numClasses then
    if tokenIds.isEmpty then .error "LootBoxRandomness: no token ids given"
    else .ok {st with classTokenIds := fun k =>
      if k = classId then tokenIds else st.classTokenIds k}
  else .error "LootBoxRandomness: class out of range"

/-- Modelled from the spec: `setOptionSettings` of the missing
`LootBoxRandomness` library (spec §4.3): owner-only option
configuration, rejected unless the option id is in range, both arrays
have exactly `numClasses` entries, every entry fits the 16-bit range,
and the guarantees sum to at most `maxQuantityPerOpen`. -/
def setOptionSettings (st : LBRState) (optionId maxQuantityPerOpen : Nat)
    (classProbabilities guarantees : List Nat) : Except String LBRState :=
  if st.numOptions ≤ optionId then .error "LootBoxRandomness: option out of range"
  else if classProbabilities.length ≠ st.numClasses then
    .error "LootBoxRandomness: wrong number of probabilities"
  else if guarantees.length ≠ st.numClasses then
    .error "LootBoxRandomness: wrong number of guarantees"
  else if !(classProbabilities.all fun p => decide (p < 65536)) then
    .error "LootBoxRandomness: probability too large"
  else if !(guarantees.all fun g => decide (g < 65536)) then
    .error "LootBoxRandomness: guarantee too large"
  else if maxQuantityPerOpen < guarantees.sum then
    .error "LootBoxRandomness: guarantees exceed max quantity"
  else
    .ok {st with optionCfg := fun o =>
      if o = optionId then
        ⟨maxQuantityPerOpen, classProbabilities, guarantees⟩
      else st.optionCfg o}

/-- An accepted option configuration satisfies every validated
constraint. -/
theorem setOptionSettings_ok_constraints (st : LBRState) (opt maxQ : Nat)
    (probs gs : List Nat)
    (h : didRevert (setOptionSettings st opt maxQ probs gs) = false) :
    opt < st.numOptions ∧ probs.length = st.numClasses ∧
      gs.length = st.numClasses ∧ gs.sum ≤ maxQ := by
  unfold setOptionSettings at h
  split at h
  · simp [didRevert] at h
  next h1 =>
    split at h
    · simp [didRevert] at h
    next h2 =>
      split at h
      · simp [didRevert] at h
      next h3 =>
        split at h
        · simp [didRevert] at h
        next =>
          split at h
          · simp [didRevert] at h
          next =>
            split at h
            · simp [didRevert] at h
            next h6 => exact ⟨by omega, by omega, by omega, by omega⟩

/-- C6: `setOptionSettings` rejects, by reverting without storing
anything, every configuration whose guarantees sum to more than
`maxQuantityPerOpen`, and every configuration whose probability or
guarantee array length differs from `numClasses` or whose option id is
not below `numOptions`. -/
theorem setOptionSettings_rejects (st : LBRState) (opt maxQ : Nat)
    (probs gs : List Nat) :
    (maxQ < gs.sum → didRevert (setOptionSettings st opt maxQ probs gs) = true) ∧
    (probs.length ≠ st.numClasses ∨ gs.length ≠ st.numClasses ∨ st.numOptions ≤ opt →
      didRevert (setOptionSettings st opt maxQ probs gs) = true) := by
  constructor
  · intro hlt
    cases hrev : didRevert (setOptionSettings st opt maxQ probs gs) with
    | true => rfl
    | false =>
        have hc := setOptionSettings_ok_constraints st opt maxQ probs gs hrev
        omega
  · intro hbad
    cases hrev : didRevert (setOptionSettings st opt maxQ probs gs) with
    | true => rfl
    | false =>
        have hc := setOptionSettings_ok_constraints st opt maxQ probs gs hrev
        rcases hbad with h | h | h <;> omega

/-- Witness for C6: a premium-box style configuration whose guarantees
sum to 3 is rejected when `maxQuantityPerOpen` is only 2. -/
theorem setOptionSettings_rejects_w :
    didRevert (setOptionSettings
      ⟨0, 3, 6, 1337, fun _ => ⟨0, [], []⟩, fun _ => []⟩
      0 2 [7300, 2100, 400, 100, 50, 50] [3, 0, 0, 0, 0, 0]) = true :=
  (setOptionSettings_rejects
    ⟨0, 3, 6, 1337, fun _ => ⟨0, [], []⟩, fun _ => []⟩
    0 2 [7300, 2100, 400, 100, 50, 50] [3, 0, 0, 0, 0, 0]).1 (by decide)

/-- C7: every unit resolved through the class registry yields a token
id that is a member of the class's configured candidate list — a
non-empty list never resolves outside itself, for any random index —
and resolving a class whose candidate list is empty reverts. -/
theorem resolveClassToTokenId_mem (ids : List Nat) (r : Nat) :
    didRevert (resolveClassToTokenId [] r) = true ∧
    (ids ≠ [] → okMem (resolveClassToTokenId ids r) ids = true) := by
  constructor
  · rfl
  · intro hne
    cases ids with
    | nil => exact absurd rfl hne
    | cons t rest =>
        simp only [resolveClassToTokenId, okMem]
        have hmem := List.get_mem (t :: rest)
          (r % (t :: rest).length) (Nat.mod_lt _ (Nat.succ_pos rest.length))
        simpa [List.contains_iff_exists_mem_beq] using ⟨_, hmem, by simp⟩

/-- Witness for C7: resolving within the two-candidate list `[10, 20]`
at random index 5 lands inside the list. -/
theorem resolveClassToTokenId_mem_w :
    okMem (resolveClassToTokenId [10, 20] 5) [10, 20] = true :=
  (resolveClassToTokenId_mem [10, 20] 5).2 (by decide)

/-- Storage of the `CreatureAccessoryLootBox` contract
(src/unnamed/part_014): the `Ownable` owner, the proxy registered for
each address in the `ProxyRegistry`, the contract's own address, the
`ReentrancyGuard` status flag, the `LootBoxRandomness` state, the
`tokenSupply` ledger maintained by the `_mint` override and the
ERC-1155 balances of the lootbox tokens; `itemSupply` and
`itemBalances` are the ledgers of the resolved items minted on unpack
(spec §3 `SupplyLedger`). -/
structure LootBoxContract where
  owner : Nat
  proxyOf : Nat → Nat
  self : Nat
  entered : Bool
  rstate : LBRState
  tokenSupply : Nat → Nat
  balances : Nat → Nat → Nat
  itemSupply : Nat → Nat
  itemBalances : Nat → Nat → Nat

/-- `_isOwnerOrProxy` (src/unnamed/part_014, lines 158–161): the caller
is the owner or the owner's registered trading proxy. -/
def isOwnerOrProxy (c : LootBoxContract) (a : Nat) : Bool :=
  c.owner == a || c.proxyOf c.owner == a

/-- Effect of the `_mint` override (src/unnamed/part_014, lines
140–150): add the quantity to `tokenSupply[id]`, then the parent
ERC-1155 mint credits the recipient's balance. -/
def applyMint (c : LootBoxContract) (recipient id quantity : Nat) : LootBoxContract :=
  {c with
    tokenSupply := fun i =>
      if i = id then c.tokenSupply i + quantity else c.tokenSupply i
    balances := fun a i =>
      if a = recipient ∧ i = id then c.balances a i + quantity else c.balances a i}

/-- `mint` (src/unnamed/part_014, lines 120–130): `nonReentrant`, then
`require(_isOwnerOrProxy(_msgSender()))`, then
`require(_optionId < state.numOptions)`, then the internal `_mint`.
The reentrancy lock of the imported `ReentrancyGuard` is modelled as
the `entered` flag: a call finding it set reverts. -/
def lootboxMint (c : LootBoxContract) (caller recipient optionId amount : Nat) :
    Except String LootBoxContract :=
  if c.entered then .error "ReentrancyGuard: reentrant call"
  else if isOwnerOrProxy c caller then
    if optionId < c.rstate.numOptions then .ok (applyMint c recipient optionId amount)
    else .error "Lootbox: Invalid Option"
  else .error "Lootbox: owner or proxy only"

/-- Modelled from the spec: the state a recipient's ERC-1155 receive
callback observes while an outer `mint` is still executing (spec §5):
the outer call's supply and balance updates are applied and the
reentrancy lock of the imported `ReentrancyGuard` is still held. -/
def mintCallbackState (c : LootBoxContract) (recipient optionId amount : Nat) : LootBoxContract :=
  {applyMint c recipient optionId amount with entered := true}

/-- Modelled from the spec: the standard ERC-1155 `_burn` invoked by
`unpack` (spec §4.5): it reverts when the holder's balance is below the
burned amount and otherwise decreases only the holder's balance — the
contract overrides only the mint side of the supply bookkeeping, so
`tokenSupply` is untouched by a burn. -/
def burnLootbox (c : LootBoxContract) (holder id amount : Nat) :
    Except String LootBoxContract :=
  if c.balances holder id < amount then .error "ERC1155: burn amount exceeds balance"
  else .ok {c with balances := fun a i =>
    if a = holder ∧ i = id then c.balances a i - amount else c.balances a i}

/-- Modelled from the spec: minting one resolved item to the recipient,
updating the item supply ledger (spec §4.5). -/
def mintItem (c : LootBoxContract) (recipient tokenId : Nat) : LootBoxContract :=
  {c with
    itemSupply := fun i =>
      if i = tokenId then c.itemSupply i + 1 else c.itemSupply i
    itemBalances := fun a i =>
      if a = recipient ∧ i = tokenId then c.itemBalances a i + 1 else c.itemBalances a i}

/-- Modelled from the spec: resolve and mint the units allocated to one
class, each unit drawn independently across the class's candidate list
(spec §4.4 step 4), consuming one randomness value per unit. -/
def mintClassUnits (recipient classId : Nat) (rng : Nat → Nat) :
    Nat → Nat → LootBoxContract → Except String (LootBoxContract × Nat)
  | nonce, 0, c => .ok (c, nonce)
  | nonce, u + 1, c =>
      (resolveClassToTokenId (c.rstate.classTokenIds classId) (rng nonce)).bind
        (fun tokenId => mintClassUnits recipient classId rng (nonce + 1) u (mintItem c recipient tokenId))

/-- Modelled from the spec: walk the per-class quantities of one
allocation in class-index order and mint every allocated unit
(spec §4.4 steps 4–5). -/
def mintAllocatedClasses (recipient : Nat) (rng : Nat → Nat) :
    List Nat → Nat → Nat → LootBoxContract → Except String (LootBoxContract × Nat)
  | [], _, nonce, c => .ok (c, nonce)
  | q :: rest, classId, nonce, c =>
      (mintClassUnits recipient classId rng nonce q c).bind
        (fun p => mintAllocatedClasses recipient rng rest (classId + 1) p.2 p.1)

/-- Modelled from the spec: `LootBoxRandomness._mint` as called by
`unpack` (spec §4.5): for each box opened, compute one allocation
(probabilities independent per box) and mint the resolved items to the
recipient. -/
def lbrMintBoxes (optionId recipient : Nat) (rng : Nat → Nat) :
    Nat → Nat → LootBoxContract → Except String LootBoxContract
  | _, 0, c => .ok c
  | nonce, n + 1, c =>
      (mintAllocatedClasses recipient rng
          (computeAllocation c.rstate.numClasses (c.rstate.optionCfg optionId) rng nonce) 0
          (nonce + ((c.rstate.optionCfg optionId).maxQuantityPerOpen
            - (c.rstate.optionCfg optionId).guarantees.sum)) c).bind
        (fun p => lbrMintBoxes optionId recipient rng p.2 n p.1)

/-- `unpack` (src/unnamed/part_014, lines 101–110): burn the lootbox
tokens from the caller — reverting the whole call if the balance is
insufficient — then mint the randomly chosen contents to the
recipient. -/
def unpack (c : LootBoxContract) (caller optionId recipient amount : Nat)
    (rng : Nat → Nat) (nonce : Nat) : Except String LootBoxContract :=
  (burnLootbox c caller optionId amount).bind
    (fun c1 => lbrMintBoxes optionId recipient rng nonce amount c1)

/-- The lootbox token supply ledger after a call: the returned state's
ledger on success, the untouched prior ledger on a revert. -/
def supplyAfter (r : Except String LootBoxContract) (prior : LootBoxContract)
    (id : Nat) : Nat :=
  match r with
  | .ok c => c.tokenSupply id
  | .error _ => prior.tokenSupply id

/-- A successful bind comes from a successful first step whose result
the continuation accepts. -/
theorem except_bind_ok {α β : Type} (x : Except String α) (f : α → Except String β)
    (b : β) (h : x.bind f = .ok b) : ∃ a, x = .ok a ∧ f a = .ok b := by
  cases x with
  | error e => simp [Except.bind] at h
  | ok a => exact ⟨a, rfl, h⟩

/-- A sample deployed lootbox used to evaluate the theorems on concrete
inputs: owner address 1 whose registered proxy is address 2, contract
address 3, factory address 4, three options and six classes configured
as in the deployment scripts, and address 5 holding ten basic boxes. -/
def sampleLootBox : LootBoxContract :=
  { owner := 1
    proxyOf := fun _ => 2
    self := 3
    entered := false
    rstate :=
      { factoryAddress := 4
        numOptions := 3
        numClasses := 6
        seed := 1337
        optionCfg := fun _ => ⟨3, [7300, 2100, 400, 100, 50, 50], [0, 0, 0, 0, 0, 0]⟩
        classTokenIds := fun k => if k < 6 then [k] else [] }
    tokenSupply := fun _ => 0
    balances := fun a i => if a = 5 ∧ i = 0 then 10 else 0
    itemSupply := fun _ => 0
    itemBalances := fun _ _ => 0 }

/-- C2: the lootbox-token mint entry point succeeds only when the
caller is the contract owner, the owner's registered trading proxy, or
the lootbox contract's own address; a call from any address outside
that set always reverts and mints nothing. -/
theorem lootboxMint_auth (c : LootBoxContract) (caller recipient optionId amount : Nat) :
    (didRevert (lootboxMint c caller recipient optionId amount) = false →
      caller = c.owner ∨ caller = c.proxyOf c.owner ∨ caller = c.self) ∧
    (caller ≠ c.owner → caller ≠ c.proxyOf c.owner → caller ≠ c.self →
      didRevert (lootboxMint c caller recipient optionId amount) = true) := by
  constructor
  · intro h
    cases he : c.entered with
    | true => simp [lootboxMint, he, didRevert] at h
    | false =>
        cases ha : isOwnerOrProxy c caller with
        | false => simp [lootboxMint, he, ha, didRevert] at h
        | true =>
            have hor : c.owner = caller ∨ c.proxyOf c.owner = caller := by
              simpa [isOwnerOrProxy] using ha
            rcases hor with h1 | h1
            · exact Or.inl h1.symm
            · exact Or.inr (Or.inl h1.symm)
  · intro h1 h2 _
    cases he : c.entered with
    | true => simp [lootboxMint, he, didRevert]
    | false =>
        have ha : isOwnerOrProxy c caller = false := by
          simp only [isOwnerOrProxy, Bool.or_eq_false_iff, beq_eq_false_iff_ne, ne_eq]
          exact ⟨fun hh => h1 hh.symm, fun hh => h2 hh.symm⟩
        simp [lootboxMint, he, ha, didRevert]

/-- Witness for C2: address 9 — neither owner 1, proxy 2, nor the
contract address 3 of the sample lootbox — cannot mint. -/
theorem lootboxMint_auth_w :
    didRevert (lootboxMint sampleLootBox 9 5 0 1) = true :=
  (lootboxMint_auth sampleLootBox 9 5 0 1).2 (by decide) (by decide) (by decide)

/-- C10: `mint` reverts for every option id at or above the configured
`numOptions`, whatever the caller; when not already reentered and
called by an authorized caller, the revert carries the message
"Lootbox: Invalid Option", so no out-of-range lootbox token can ever
be minted through this entry point. -/
theorem lootboxMint_invalid_option (c : LootBoxContract) (caller recipient amount k : Nat) :
    didRevert (lootboxMint c caller recipient (c.rstate.numOptions + k) amount) = true ∧
    (c.entered = false → isOwnerOrProxy c caller = true →
      lootboxMint c caller recipient (c.rstate.numOptions + k) amount
        = .error "Lootbox: Invalid Option") := by
  have hno : ¬ (c.rstate.numOptions + k < c.rstate.numOptions) := by omega
  constructor
  · cases he : c.entered with
    | true => simp [lootboxMint, he, didRevert]
    | false =>
        cases ha : isOwnerOrProxy c caller with
        | false => simp [lootboxMint, he, ha, didRevert]
        | true => simp [lootboxMint, he, ha, hno, didRevert]
  · intro he ha
    simp [lootboxMint, he, ha, hno]

/-- Witness for C10: the owner of the sample lootbox, which has three
options, cannot mint option 3. -/
theorem lootboxMint_invalid_option_w :
    lootboxMint sampleLootBox 1 5 (sampleLootBox.rstate.numOptions + 0) 1
      = .error "Lootbox: Invalid Option" :=
  (lootboxMint_invalid_option sampleLootBox 1 5 1 0).2 rfl rfl

/-- C3: a reentrant call into `mint` issued from a recipient's ERC-1155
receive callback — that is, on the mid-execution state in which the
reentrancy lock is still held — reverts, whatever its arguments; and a
completed outer `mint` raises `tokenSupply` of the minted option by
exactly its own amount, so the ledger carries no increase beyond the
single legitimate allocation. -/
theorem reentrant_mint_blocked (c c' : LootBoxContract)
    (caller recipient optionId amount caller2 recipient2 optionId2 amount2 : Nat) :
    didRevert (lootboxMint (mintCallbackState c recipient optionId amount)
      caller2 recipient2 optionId2 amount2) = true ∧
    (lootboxMint c caller recipient optionId amount = .ok c' →
      c'.tokenSupply optionId = c.tokenSupply optionId + amount) := by
  constructor
  · rfl
  · intro h
    cases he : c.entered with
    | true => simp [lootboxMint, he] at h
    | false =>
        cases ha : isOwnerOrProxy c caller with
        | false => simp [lootboxMint, he, ha] at h
        | true =>
            by_cases ho : optionId < c.rstate.numOptions
            · simp only [lootboxMint, he, ha, ho, if_true, if_false, Bool.false_eq_true,
                Except.ok.injEq] at h
              rw [← h]
              simp [applyMint]
            · simp [lootboxMint, he, ha, ho] at h

/-- Witness for C3: the owner's completed mint of two basic boxes on
the sample lootbox raises `tokenSupply[0]` by exactly two. -/
theorem reentrant_mint_blocked_w :
    (applyMint sampleLootBox 5 0 2).tokenSupply 0 = sampleLootBox.tokenSupply 0 + 2 :=
  (reentrant_mint_blocked sampleLootBox (applyMint sampleLootBox 5 0 2)
    1 5 0 2 1 5 0 2).2 rfl

/-- C4: whenever the caller's lootbox-token balance for an option is
below the requested amount, `unpack` reverts as a whole at the burn —
no lootbox tokens are burned, no items are minted, and the supply
ledger is unchanged, since a reverted call leaves the prior state in
force. -/
theorem unpack_insufficient_balance (c : LootBoxContract)
    (caller optionId recipient amount : Nat) (rng : Nat → Nat) (nonce : Nat)
    (h : c.balances caller optionId < amount) :
    unpack c caller optionId recipient amount rng nonce
      = .error "ERC1155: burn amount exceeds balance" := by
  simp [unpack, burnLootbox, h, Except.bind]

/-- Witness for C4: address 9 holds no basic boxes of the sample
lootbox, so unpacking one reverts. -/
theorem unpack_insufficient_balance_w :
    unpack sampleLootBox 9 0 5 1 (fun n => n) 0
      = .error "ERC1155: burn amount exceeds balance" :=
  unpack_insufficient_balance sampleLootBox 9 0 5 1 (fun n => n) 0 (by decide)

/-- A successful burn leaves the `tokenSupply` ledger untouched. -/
theorem burnLootbox_tokenSupply (c c' : LootBoxContract) (holder id amount : Nat)
    (h : burnLootbox c holder id amount = .ok c') :
    c'.tokenSupply = c.tokenSupply := by
  unfold burnLootbox at h
  split at h
  · cases h
  · simp only [Except.ok.injEq] at h
    rw [← h]

/-- Minting the units of one class touches only the item ledgers. -/
theorem mintClassUnits_tokenSupply (recipient classId : Nat) (rng : Nat → Nat) :
    ∀ u nonce c c' nonce',
      mintClassUnits recipient classId rng nonce u c = .ok (c', nonce') →
      c'.tokenSupply = c.tokenSupply := by
  intro u
  induction u with
  | zero =>
      intro nonce c c' nonce' h
      simp only [mintClassUnits, Except.ok.injEq, Prod.mk.injEq] at h
      rw [← h.1]
  | succ m ih =>
      intro nonce c c' nonce' h
      simp only [mintClassUnits] at h
      obtain ⟨tokenId, -, hrec⟩ := except_bind_ok _ _ _ h
      have := ih (nonce + 1) (mintItem c recipient tokenId) c' nonce' hrec
      rw [this]
      rfl

/-- Minting a whole allocation touches only the item ledgers. -/
theorem mintAllocatedClasses_tokenSupply (recipient : Nat) (rng : Nat → Nat) :
    ∀ qs classId nonce c c' nonce',
      mintAllocatedClasses recipient rng qs classId nonce c = .ok (c', nonce') →
      c'.tokenSupply = c.tokenSupply := by
  intro qs
  induction qs with
  | nil =>
      intro classId nonce c c' nonce' h
      simp only [mintAllocatedClasses, Except.ok.injEq, Prod.mk.injEq] at h
      rw [← h.1]
  | cons q rest ih =>
      intro classId nonce c c' nonce' h
      simp only [mintAllocatedClasses] at h
      obtain ⟨p, hp, hrec⟩ := except_bind_ok _ _ _ h
      obtain ⟨c1, nonce1⟩ := p
      have h1 := mintClassUnits_tokenSupply recipient classId rng q nonce c c1 nonce1 hp
      have h2 := ih (classId + 1) nonce1 c1 c' nonce' hrec
      rw [h2, h1]

/-- Opening boxes mints only items: the lootbox `tokenSupply` ledger is
untouched. -/
theorem lbrMintBoxes_tokenSupply (optionId recipient : Nat) (rng : Nat → Nat) :
    ∀ n nonce c c', lbrMintBoxes optionId recipient rng nonce n c = .ok c' →
      c'.tokenSupply = c.tokenSupply := by
  intro n
  induction n with
  | zero =>
      intro nonce c c' h
      simp only [lbrMintBoxes, Except.ok.injEq] at h
      rw [← h]
  | succ m ih =>
      intro nonce c c' h
      simp only [lbrMintBoxes] at h
      obtain ⟨p, hp, hrec⟩ := except_bind_ok _ _ _ h
      obtain ⟨c1, nonce1⟩ := p
      have h1 := mintAllocatedClasses_tokenSupply recipient rng _ _ _ c c1 nonce1 hp
      have h2 := ih nonce1 c1 c' hrec
      rw [h2, h1]

/-- C8: the per-token supply counter of the lootbox never decreases —
the `_mint` override adds the minted quantity, and `unpack` burns
through the plain ERC-1155 `_burn` without subtracting from
`tokenSupply` — so whether `unpack` succeeds or reverts,
`tokenSupply[optionId]` is the same before and after the call. -/
theorem unpack_preserves_tokenSupply (c : LootBoxContract)
    (caller optionId recipient amount : Nat) (rng : Nat → Nat) (nonce : Nat) :
    supplyAfter (unpack c caller optionId recipient amount rng nonce) c optionId
      = c.tokenSupply optionId ∧
    (∀ who id quantity i,
      c.tokenSupply i ≤ (applyMint c who id quantity).tokenSupply i) ∧
    (∀ who id quantity,
      (applyMint c who id quantity).tokenSupply id = c.tokenSupply id + quantity) := by
  refine ⟨?_, ?_, ?_⟩
  · unfold unpack
    cases hb : burnLootbox c caller optionId amount with
    | error e => simp [Except.bind, supplyAfter]
    | ok c1 =>
        simp only [Except.bind]
        cases hm : lbrMintBoxes optionId recipient rng nonce amount c1 with
        | error e => simp [supplyAfter]
        | ok c2 =>
            have h1 := burnLootbox_tokenSupply c c1 caller optionId amount hb
            have h2 := lbrMintBoxes_tokenSupply optionId recipient rng amount nonce c1 c2 hm
            simp [supplyAfter, h2, h1]
  · intro who id quantity i
    by_cases hi : i = id <;> simp [applyMint, hi]
  · intro who id quantity
    simp [applyMint]

/-- `NUM_ITEM_OPTIONS` of `CreatureAccessoryFactory`
(src/unnamed/part_015, line 36). -/
def NUM_ITEM_OPTIONS : Nat := 6

/-- `NUM_LOOTBOX_OPTIONS` of `CreatureAccessoryFactory`
(src/unnamed/part_015, line 37). -/
def NUM_LOOTBOX_OPTIONS : Nat := 3

/-- `NUM_OPTIONS = NUM_ITEM_OPTIONS + NUM_LOOTBOX_OPTIONS`
(src/unnamed/part_015, lines 38–39). -/
def NUM_OPTIONS : Nat := NUM_ITEM_OPTIONS + NUM_LOOTBOX_OPTIONS

/-- `MAX_SUPPLY = type(uint256).max` (src/unnamed/part_015, line 45). -/
def MAX_SUPPLY : Nat := 2 ^ 256 - 1

/-- Environment of `CreatureAccessoryFactory` (src/unnamed/part_015):
its owner, the proxy registry, the lootbox contract address, the
accessory contract's balances of the owner and the lootbox contract's
total supply, both read through external calls. -/
structure Factory where
  owner : Nat
  proxyOf : Nat → Nat
  lootBoxAddress : Nat
  nftOwnerBalance : Nat → Nat
  lootSupplyOf : Nat → Nat

/-- The errors declared by `CreatureAccessoryFactory`
(src/unnamed/part_015, lines 26–28). -/
inductive FactoryError where
  | CannotMint
  | InvalidOption
  | Unauthorized
deriving DecidableEq

/-- The external effect of a successful factory mint: a
`safeTransferFrom` of pre-minted accessories for item options, or a
create-or-mint of lootbox tokens for lootbox options
(src/unnamed/part_015, lines 154–177). -/
inductive FactoryAction where
  | transferItems (recipient optionId amount : Nat)
  | mintLootboxes (recipient tokenId amount : Nat)
deriving DecidableEq

/-- `_isOwnerOrProxy` of the factory (src/unnamed/part_015, lines
242–251). -/
def factoryIsOwnerOrProxy (f : Factory) (account : Nat) : Bool :=
  account == f.owner || f.proxyOf f.owner == account

/-- `balanceOf` of the factory (src/unnamed/part_015, lines 202–229):
item options report the owner's accessory balance to the owner, proxy
and lootbox contract and zero to anyone else; lootbox options report
the remaining mintable supply to the owner and proxy and zero to
anyone else. -/
def factoryBalanceOf (f : Factory) (ownerAddress optionId : Nat) : Nat :=
  if optionId < NUM_ITEM_OPTIONS then
    if !(factoryIsOwnerOrProxy f ownerAddress) && ownerAddress != f.lootBoxAddress then 0
    else f.nftOwnerBalance optionId
  else
    if !(factoryIsOwnerOrProxy f ownerAddress) then 0
    else MAX_SUPPLY - f.lootSupplyOf (optionId - NUM_ITEM_OPTIONS)

/-- `_canMint` of the factory (src/unnamed/part_015, lines 231–237):
the amount is strictly positive and within the caller's factory
balance. -/
def factoryCanMint (f : Factory) (caller optionId amount : Nat) : Bool :=
  decide (0 < amount) && decide (amount ≤ factoryBalanceOf f caller optionId)

/-- `mint`/`_mint` of the factory (src/unnamed/part_015, lines
136–178): revert `CannotMint` unless `_canMint` holds, then dispatch on
the option range with the per-range authorization checks. -/
def factoryMint (f : Factory) (caller optionId recipient amount : Nat) :
    Except FactoryError FactoryAction :=
  if !(factoryCanMint f caller optionId amount) then .error .CannotMint
  else if optionId < NUM_ITEM_OPTIONS then
    if !(factoryIsOwnerOrProxy f caller) && caller != f.lootBoxAddress then
      .error .Unauthorized
    else .ok (.transferItems recipient optionId amount)
  else if optionId < NUM_OPTIONS then
    if !(factoryIsOwnerOrProxy f caller) then .error .Unauthorized
    else .ok (.mintLootboxes recipient (optionId - NUM_ITEM_OPTIONS) amount)
  else .error .InvalidOption

/-- C9: `CreatureAccessoryFactory.mint` reverts with `CannotMint` for
every call with amount zero, regardless of caller, option or
recipient, because `_canMint` requires a strictly positive amount. -/
theorem factoryMint_zero_amount (f : Factory) (caller optionId recipient : Nat) :
    factoryMint f caller optionId recipient 0 = .error .CannotMint := rfl
